import Mathlib

/-!
Shallow embedding of the reconciliation-and-alerting core of the
Financial-Data-Accuracy-Dashboard repository.

Source files embedded: `src/data_fetcher.py` (class `DataFetcher`) and
`src/alert_system.py` (class `AlertSystem`).

Modelling conventions:
* Python floats are modelled as `ℚ`; the decimal constants 0.2, 0.1, 0.5
  appear as `1/5`, `1/10`, `1/2`.
* Timestamps (`datetime.now()`) are modelled as `Int` seconds; `timedelta`
  comparisons become integer comparisons (12 s, 300 s = 5 min,
  3600 s = 1 h).  Each Python call reads the clock and we pass that
  instant in as an explicit `now` argument.
* `pandas.DataFrame` histories become `List` of records; Python dicts
  keyed by symbol become association lists consulted with `lookupSym`
  (consing a new pair at the front realises dict overwrite, because
  `lookupSym` returns the first hit).
* Network calls and the e-mail transport are external collaborators: each
  fetch takes the collaborator's answer as an `Option` argument and the
  notifier outcome is a `Bool` argument.
* `pandas.Series.std()` (ddof = 1) returns the square root of the sample
  variance.  Square roots leave `ℚ`, so standard deviations are carried
  by their squares throughout (field `volatilitySq`); `x ↦ x ^ 2` is
  injective on the non-negative reals, so two standard deviations agree
  exactly when the squares stored here agree.
-/

namespace FinDash

/-- Membership test plus read for the symbol-keyed Python dicts
(`symbol in d` followed by `d[symbol]`): the first pair for the key wins,
so consing a fresh pair models `d[symbol] = value`. -/
def lookupSym (m : List (String × Int)) (s : String) : Option Int :=
  match m with
  | [] => none
  | (k, v) :: rest => if k = s then some v else lookupSym rest s

/-- Arithmetic mean of a list of rationals (`Series.mean()`);
division by zero only arises on the empty list, where callers never use it. -/
def listMean (xs : List ℚ) : ℚ := xs.sum / (xs.length : ℚ)

/-- Last `n` elements of a list (`Series.tail(n)` / `DataFrame.tail(n)`). -/
def lastN {α : Type} (n : Nat) (xs : List α) : List α :=
  xs.drop (xs.length - n)

/-- Square of `pandas.Series.std()` with the default `ddof = 1`:
the sample variance with `N − 1` denominator. -/
def sampleVarQ (xs : List ℚ) : ℚ :=
  (xs.map (fun x => (x - listMean xs) ^ 2)).sum / ((xs.length : ℚ) - 1)

/-- One row of `DataFetcher.price_history`
(columns `Timestamp`, `Symbol`, `Alpha Vantage Price`,
`Yahoo Finance Price`, `Difference %`, `Moving Average`, `Volatility`).
`volatilitySq` carries the square of the stored `Volatility` value,
see the header note. -/
structure ComparisonRecord where
  timestamp : Int
  symbol : String
  alphaVantagePrice : ℚ
  yahooFinancePrice : ℚ
  differencePercent : ℚ
  movingAverage : Option ℚ
  volatilitySq : Option ℚ
deriving DecidableEq, Repr

/-- Mutable state of a `DataFetcher` instance:
`self.price_history` and `self.last_fetch_time`. -/
structure DataFetcherState where
  priceHistory : List ComparisonRecord
  lastFetchTime : List (String × Int)
deriving DecidableEq, Repr

/-- The rows of the history whose `Symbol` column equals `s`
(`self.price_history[self.price_history['Symbol'] == symbol]`). -/
def symbolRecords (h : List ComparisonRecord) (s : String) : List ComparisonRecord :=
  h.filter (fun r => r.symbol == s)

/-- The `Difference %` column of the symbol-filtered history. -/
def symbolDiffs (h : List ComparisonRecord) (s : String) : List ℚ :=
  (symbolRecords h s).map ComparisonRecord.differencePercent

/-- A raw value handed to price validation: either a finite number, or one
of the degenerate shapes the sources can produce (missing field,
non-numeric payload, NaN, ±infinity). -/
inductive RawValue where
  | missing
  | nonNumeric
  | nanValue
  | posInf
  | negInf
  | num (q : ℚ)
deriving DecidableEq, Repr

/-- Modelled from the spec: `_validate_price` is invoked at
`data_fetcher.py:119` and `data_fetcher.py:141` but is defined nowhere
under `src/`.  Spec §4.1 gives its contract: `validate(raw_value, source,
symbol) -> price | rejected`, rejecting exactly when the raw value is
missing, non-numeric, zero, negative, or non-finite, emitting only a
diagnostic (no exception, no state mutation) on rejection. -/
def validatePrice : RawValue → Option ℚ
  | RawValue.num q => if 0 < q then some q else none
  | _ => none

/-- `DataFetcher._calculate_analytics` (data_fetcher.py:38-71).
`rolling(window=5, min_periods=1).mean().iloc[-1]` is the mean of the
last `min 5 n` entries; `.std()` is carried squared; pandas
`is_monotonic_increasing` / `is_monotonic_decreasing` are the
non-strict chain conditions on `tail(5)`. -/
def calculateAnalytics (h : List ComparisonRecord) (symbol : String) :
    Option ℚ × Option ℚ × Option String :=
  if h.length < 2 then (none, none, none)
  else if (symbolRecords h symbol).length < 2 then (none, none, none)
  else
    let diffs := symbolDiffs h symbol
    let recentDiffs := lastN 5 diffs
    (some (listMean recentDiffs),
     some (sampleVarQ diffs),
     some (if List.Chain' (fun a b => a ≤ b) recentDiffs then "increasing"
           else if List.Chain' (fun a b => b ≤ a) recentDiffs then "decreasing"
           else "fluctuating"))

/-- The local `avg_alpha` of `_cross_validate_prices` (data_fetcher.py:86):
mean of the `Alpha Vantage Price` column over the last up-to-5 records
for the symbol. -/
def avgAlphaRecent (h : List ComparisonRecord) (symbol : String) : ℚ :=
  listMean ((lastN 5 (symbolRecords h symbol)).map ComparisonRecord.alphaVantagePrice)

/-- The local `avg_yahoo` of `_cross_validate_prices` (data_fetcher.py:87). -/
def avgYahooRecent (h : List ComparisonRecord) (symbol : String) : ℚ :=
  listMean ((lastN 5 (symbolRecords h symbol)).map ComparisonRecord.yahooFinancePrice)

/-- `DataFetcher._cross_validate_prices` (data_fetcher.py:73-103).
The code falls through to its final `return True` whenever no check
fires; the `recent_data` local is `tail(5)` of the symbol-filtered
history. -/
def crossValidatePrices (h : List ComparisonRecord) (alphaPrice yahooPrice : ℚ)
    (symbol : String) : Bool :=
  if 1/5 < |alphaPrice - yahooPrice| / min alphaPrice yahooPrice then
    if h.isEmpty then true
    else if (lastN 5 (symbolRecords h symbol)).isEmpty then true
    else if 1/10 < |alphaPrice - avgAlphaRecent h symbol| / avgAlphaRecent h symbol ∧
            1/10 < |yahooPrice - avgYahooRecent h symbol| / avgYahooRecent h symbol then false
    else if 1/10 < |alphaPrice - avgAlphaRecent h symbol| / avgAlphaRecent h symbol then false
    else if 1/10 < |yahooPrice - avgYahooRecent h symbol| / avgYahooRecent h symbol then false
    else true
  else true

/-- The live-fetch tail of `get_alpha_vantage_data` (data_fetcher.py:116-127):
`net = none` models an exception raised by the HTTP client or the price
parse (caught by the blanket `except`, yielding `None`); on a validated
price, `self.last_fetch_time[symbol]` is set to the current instant. -/
def avLiveFetch (s : DataFetcherState) (symbol : String) (now : Int)
    (net : Option RawValue) : Option ℚ × DataFetcherState :=
  match net with
  | none => (none, s)
  | some raw =>
    match validatePrice raw with
    | some price => (some price, ⟨s.priceHistory, (symbol, now) :: s.lastFetchTime⟩)
    | none => (none, s)

/-- `DataFetcher.get_alpha_vantage_data` (data_fetcher.py:105-127).
The cache branch returns
`self.price_history['Alpha Vantage Price'].iloc[-1]` — the last row of
the whole history, with no symbol filter; on an empty history the
`iloc[-1]` raises `IndexError`, caught by the blanket `except`,
so the call yields `None`. -/
def getAlphaVantageData (s : DataFetcherState) (symbol : String) (now : Int)
    (net : Option RawValue) : Option ℚ × DataFetcherState :=
  match lookupSym s.lastFetchTime symbol with
  | some t =>
    if now - t < 12 then
      match s.priceHistory.getLast? with
      | some r => (some r.alphaVantagePrice, s)
      | none => (none, s)
    else avLiveFetch s symbol now net
  | none => avLiveFetch s symbol now net

/-- `DataFetcher.get_yahoo_finance_data` (data_fetcher.py:129-148):
no cache, no state; `net = none` models an exception or an empty frame,
otherwise the close price is validated and returned. -/
def getYahooFinanceData (net : Option RawValue) : Option ℚ :=
  match net with
  | none => none
  | some raw =>
    match validatePrice raw with
    | some price => some price
    | none => none

/-- Append to the history then enforce the 1000-row cap
(data_fetcher.py:177-181: `pd.concat` followed by `.tail(1000)`
when the length exceeds 1000). -/
def appendCapped (h : List ComparisonRecord) (r : ComparisonRecord) :
    List ComparisonRecord :=
  let grown := h ++ [r]
  if 1000 < grown.length then grown.drop (grown.length - 1000) else grown

/-- Outcome of one `get_price_comparison` call.  `formatError` models the
uncaught `TypeError` raised by the log f-string at data_fetcher.py:183-188
when `analytics["moving_average"]` is `None` (formatting `None` with
`:.2f`); the history append at line 177 has already happened when it
fires, so the state mutation survives the raise. -/
inductive FetchOutcome where
  | ok (alphaPrice yahooPrice diffPercent : ℚ)
  | nullTriple
  | formatError
deriving DecidableEq, Repr

/-- `DataFetcher.get_price_comparison` (data_fetcher.py:150-192). -/
def getPriceComparison (s : DataFetcherState) (symbol : String) (now : Int)
    (avNet yfNet : Option RawValue) : FetchOutcome × DataFetcherState :=
  let fetched := getAlphaVantageData s symbol now avNet
  match fetched.1, getYahooFinanceData yfNet with
  | some alphaPrice, some yahooPrice =>
    if crossValidatePrices fetched.2.priceHistory alphaPrice yahooPrice symbol then
      let diff := |alphaPrice - yahooPrice| / alphaPrice * 100
      let analytics := calculateAnalytics fetched.2.priceHistory symbol
      let newRec : ComparisonRecord :=
        ⟨now, symbol, alphaPrice, yahooPrice, diff, analytics.1, analytics.2.1⟩
      let s' : DataFetcherState :=
        ⟨appendCapped fetched.2.priceHistory newRec, fetched.2.lastFetchTime⟩
      if analytics.1 = none then (FetchOutcome.formatError, s')
      else (FetchOutcome.ok alphaPrice yahooPrice diff, s')
    else (FetchOutcome.nullTriple, fetched.2)
  | _, _ => (FetchOutcome.nullTriple, fetched.2)

/-- One row of `AlertSystem.alert_history`
(columns `Timestamp`, `Symbol`, `Discrepancy`, `Alert Sent`, `Alert Type`). -/
structure AlertRecord where
  timestamp : Int
  symbol : String
  discrepancy : ℚ
  alertSent : Bool
  alertType : String
deriving DecidableEq, Repr

/-- Mutable state of an `AlertSystem` instance: the configured
`self.threshold` (env `DISCREPANCY_THRESHOLD`, default 0.5) plus
`self.alert_history` and `self.last_alert_time`.  The cooldown is the
constant `timedelta(minutes=5)` = 300 s. -/
structure AlertState where
  threshold : ℚ
  alertHistory : List AlertRecord
  lastAlertTime : List (String × Int)
deriving DecidableEq, Repr

/-- The rows of the alert history counted by the rate limit
(alert_system.py:56-59): same symbol, `Timestamp` strictly later than
one hour before the current instant. -/
def recentAlerts (st : AlertState) (symbol : String) (now : Int) : List AlertRecord :=
  st.alertHistory.filter (fun r => r.symbol == symbol && decide (now - 3600 < r.timestamp))

/-- The threshold and rate-limit checks of `_validate_alert_conditions`
(alert_system.py:51-65), reached once the cooldown check has passed. -/
def validateAlertRest (st : AlertState) (symbol : String) (priceDifference : ℚ)
    (now : Int) : Bool × String :=
  if |priceDifference| ≤ st.threshold then (false, "below_threshold")
  else if 5 ≤ (recentAlerts st symbol now).length then (false, "rate_limit")
  else (true, "valid")

/-- `AlertSystem._validate_alert_conditions` (alert_system.py:40-65):
cooldown first, then threshold, then the hourly rate limit. -/
def validateAlertConditions (st : AlertState) (symbol : String)
    (priceDifference : ℚ) (now : Int) : Bool × String :=
  match lookupSym st.lastAlertTime symbol with
  | some t =>
    if now - t < 300 then (false, "cooldown")
    else validateAlertRest st symbol priceDifference now
  | none => validateAlertRest st symbol priceDifference now

/-- `AlertSystem.send_alert` (alert_system.py:71-127).  `notifierOk`
models the SMTP transaction inside the `try` block: on an exception the
blanket `except` returns `False` before the history append and the
`last_alert_time` update are reached, so the state is unchanged.
`alphaPrice` and `yahooPrice` only feed the message body. -/
def sendAlert (st : AlertState) (symbol : String) (_alphaPrice _yahooPrice : ℚ)
    (differencePercentage : ℚ) (now : Int) (notifierOk : Bool) : Bool × AlertState :=
  if (validateAlertConditions st symbol differencePercentage now).1 then
    if notifierOk then
      (true,
       ⟨st.threshold,
        st.alertHistory ++ [⟨now, symbol, differencePercentage, true, "threshold_exceeded"⟩],
        (symbol, now) :: st.lastAlertTime⟩)
    else (false, st)
  else (false, st)

/-- One external `send_alert` invocation: its arguments, the instant
`datetime.now()` reports during the call, and the notifier's verdict. -/
structure AlertCall where
  symbol : String
  alphaPrice : ℚ
  yahooPrice : ℚ
  differencePercentage : ℚ
  now : Int
  notifierOk : Bool
deriving DecidableEq, Repr

/-- Run a sequence of `send_alert` calls against an `AlertSystem` state. -/
def runAlerts (st : AlertState) : List AlertCall → AlertState
  | [] => st
  | c :: cs =>
    runAlerts (sendAlert st c.symbol c.alphaPrice c.yahooPrice
        c.differencePercentage c.now c.notifierOk).2 cs

/-- Two alert records respect the cooldown spacing: if they are for the
same symbol, the later-inserted one is stamped at least 300 s after the
earlier one. -/
def gapOK (a b : AlertRecord) : Prop :=
  a.symbol = b.symbol → a.timestamp + 300 ≤ b.timestamp

/-- Invariant tying the alert ledger to the cooldown map: insertion-ordered
records for one symbol are spaced by at least the cooldown, and every
recorded symbol is present in `last_alert_time` with a stamp no older
than any of its records. -/
def AlertInv (st : AlertState) : Prop :=
  st.alertHistory.Pairwise gapOK ∧
  ∀ r ∈ st.alertHistory,
    ∃ t, lookupSym st.lastAlertTime r.symbol = some t ∧ r.timestamp ≤ t

/-- Unfolding `lookupSym` over a freshly written dict entry. -/
lemma lookupSym_cons (k : String) (v : Int) (m : List (String × Int)) (s : String) :
    lookupSym ((k, v) :: m) s = if k = s then some v else lookupSym m s := rfl

/-- The admission check once the cooldown map hits for the symbol. -/
lemma validateAlertConditions_some {st : AlertState} {symbol : String} {d : ℚ}
    {now t : Int} (ht : lookupSym st.lastAlertTime symbol = some t) :
    validateAlertConditions st symbol d now =
      if now - t < 300 then (false, "cooldown") else validateAlertRest st symbol d now := by
  unfold validateAlertConditions
  rw [ht]

/-- The admission check when the cooldown map has no entry for the symbol. -/
lemma validateAlertConditions_none {st : AlertState} {symbol : String} {d : ℚ}
    {now : Int} (ht : lookupSym st.lastAlertTime symbol = none) :
    validateAlertConditions st symbol d now = validateAlertRest st symbol d now := by
  unfold validateAlertConditions
  rw [ht]

/-- When the admission check reports `True`, the cooldown test has passed:
any cooldown stamp for the symbol is at least 300 s in the past. -/
lemma validate_true_cooldown {st : AlertState} {symbol : String} {d : ℚ} {now : Int}
    (h : (validateAlertConditions st symbol d now).1 = true) :
    ∀ t, lookupSym st.lastAlertTime symbol = some t → 300 ≤ now - t := by
  intro t ht
  rw [validateAlertConditions_some ht] at h
  by_cases hc : now - t < 300
  · rw [if_pos hc] at h
    simp at h
  · omega

/-- One `send_alert` call preserves the cooldown-ledger invariant. -/
lemma sendAlert_inv {st : AlertState} (symbol : String) (a y d : ℚ) (now : Int)
    (ok : Bool) (hinv : AlertInv st) :
    AlertInv (sendAlert st symbol a y d now ok).2 := by
  unfold sendAlert
  by_cases hv : (validateAlertConditions st symbol d now).1 = true
  · rw [if_pos hv]
    by_cases hok : ok = true
    · rw [if_pos hok]
      constructor
      · rw [List.pairwise_append]
        refine ⟨hinv.1, List.pairwise_singleton _ _, ?_⟩
        intro r hr b hb
        simp only [List.mem_singleton] at hb
        subst hb
        intro hsym
        obtain ⟨t, hl, hle⟩ := hinv.2 r hr
        simp only at hsym
        rw [hsym] at hl
        have h300 := validate_true_cooldown hv t hl
        simp only
        omega
      · intro r hr
        rcases List.mem_append.1 hr with hr | hr
        · obtain ⟨t, hl, hle⟩ := hinv.2 r hr
          by_cases hs : r.symbol = symbol
          · refine ⟨now, ?_, ?_⟩
            · simp [lookupSym, hs]
            · have h300 := validate_true_cooldown hv t (hs ▸ hl)
              omega
          · refine ⟨t, ?_, hle⟩
            rw [lookupSym_cons, if_neg (fun h => hs h.symm)]
            exact hl
        · simp only [List.mem_singleton] at hr
          subst hr
          exact ⟨now, by simp [lookupSym], le_refl _⟩
    · rw [if_neg hok]
      exact hinv
  · rw [if_neg hv]
    exact hinv

/-- Running any alert trace preserves the invariant. -/
lemma runAlerts_inv (calls : List AlertCall) :
    ∀ st : AlertState, AlertInv st → AlertInv (runAlerts st calls) := by
  induction calls with
  | nil => intro st h; exact h
  | cons c cs ih =>
    intro st h
    exact ih _ (sendAlert_inv c.symbol c.alphaPrice c.yahooPrice
      c.differencePercentage c.now c.notifierOk h)

/-- The `AlertSystem.__init__` ledger: empty history, empty cooldown map,
the configured threshold. -/
def initAlertState (threshold : ℚ) : AlertState := ⟨threshold, [], []⟩

/-- Claim C3: for any sequence of `send_alert` calls — any timestamps,
discrepancies and notifier outcomes — no two alert records for the same
symbol are ever closer than the 5-minute (300 s) cooldown: in insertion
order each later record for a symbol is stamped at least 300 s after the
earlier one (`gapOK`).  Moreover any call finding a `last_alert_time`
entry for its symbol less than 300 s old is suppressed with reason
`"cooldown"`. -/
theorem alert_cooldown_invariant :
    (∀ (threshold : ℚ) (calls : List AlertCall),
      (runAlerts (initAlertState threshold) calls).alertHistory.Pairwise gapOK) ∧
    (∀ (st : AlertState) (symbol : String) (d : ℚ) (now t : Int),
      lookupSym st.lastAlertTime symbol = some t → now - t < 300 →
      validateAlertConditions st symbol d now = (false, "cooldown")) := by
  constructor
  · intro threshold calls
    have h := runAlerts_inv calls (initAlertState threshold)
      ⟨List.Pairwise.nil, by intro r hr; simp [initAlertState] at hr⟩
    exact h.1
  · intro st symbol d now t hl hlt
    rw [validateAlertConditions_some hl, if_pos hlt]

/-- Witness for C3: a two-call trace (same symbol, stamps 0 and 400,
both delivered) satisfies the pairwise gap property, and a state whose
cooldown entry for `"AAPL"` is 10 s old suppresses with `"cooldown"`. -/
theorem alert_cooldown_invariant_witness :
    (runAlerts (initAlertState (1/2))
      [⟨"AAPL", 100, 101, 2, 0, true⟩, ⟨"AAPL", 100, 101, 2, 400, true⟩]).alertHistory.Pairwise
        gapOK ∧
    validateAlertConditions ⟨1/2, [], [("AAPL", 0)]⟩ "AAPL" 3 10 = (false, "cooldown") :=
  ⟨alert_cooldown_invariant.1 (1/2) _,
   alert_cooldown_invariant.2 ⟨1/2, [], [("AAPL", 0)]⟩ "AAPL" 3 10 0 (by simp [lookupSym])
     (by norm_num)⟩

/-- Claim C4, counterexample: with an active cooldown for the symbol
(stamp 0, call at 10 s) and a discrepancy of 0 (≤ any threshold, here 2),
the admission check suppresses with reason `"cooldown"`, not
`"below_threshold"` — the threshold reason is not independent of the
cooldown state. -/
theorem below_threshold_reason_counterexample :
    |(0 : ℚ)| ≤ (2 : ℚ) ∧
    (validateAlertConditions ⟨2, [], [("AAPL", 0)]⟩ "AAPL" 0 10).2 = "cooldown" ∧
    "cooldown" ≠ "below_threshold" := by
  refine ⟨by decide, ?_, by decide⟩
  rw [validateAlertConditions_some (t := 0) (by decide), if_pos (by decide)]

/-- Claim C4 (amended): whenever the cooldown check passes (no
`last_alert_time` entry for the symbol, or the entry is at least 300 s
old) and `|discrepancy| ≤ threshold`, the admission check suppresses with
reason `"below_threshold"`, for every alert history — independent of the
rate-limit state. -/
theorem below_threshold_after_cooldown :
    ∀ (st : AlertState) (symbol : String) (d : ℚ) (now : Int),
      (lookupSym st.lastAlertTime symbol = none ∨
        ∃ t, lookupSym st.lastAlertTime symbol = some t ∧ 300 ≤ now - t) →
      |d| ≤ st.threshold →
      validateAlertConditions st symbol d now = (false, "below_threshold") := by
  intro st symbol d now hcool hd
  have hrest : validateAlertRest st symbol d now = (false, "below_threshold") := by
    unfold validateAlertRest
    rw [if_pos hd]
  rcases hcool with h | ⟨t, ht, h300⟩
  · rw [validateAlertConditions_none h, hrest]
  · rw [validateAlertConditions_some ht, if_neg (by omega), hrest]

/-- An alert ledger holding six deliveries for `"AAPL"` inside the hour
preceding instant 4000 — deep into rate-limit territory. -/
def sixRecentAlerts : List AlertRecord :=
  [⟨3000, "AAPL", 5, true, "threshold_exceeded"⟩,
   ⟨3100, "AAPL", 5, true, "threshold_exceeded"⟩,
   ⟨3200, "AAPL", 5, true, "threshold_exceeded"⟩,
   ⟨3300, "AAPL", 5, true, "threshold_exceeded"⟩,
   ⟨3400, "AAPL", 5, true, "threshold_exceeded"⟩,
   ⟨3500, "AAPL", 5, true, "threshold_exceeded"⟩]

/-- Witness for C4 (amended): no cooldown entry, discrepancy 0 ≤
threshold 2, and a history already holding six recent alerts — the
check still answers `below_threshold`. -/
theorem below_threshold_after_cooldown_witness :
    validateAlertConditions ⟨2, sixRecentAlerts, []⟩ "AAPL" 0 4000 =
      (false, "below_threshold") :=
  below_threshold_after_cooldown ⟨2, sixRecentAlerts, []⟩ "AAPL" 0 4000
    (Or.inl rfl) (by decide)

/-- Claim C5, counterexample: from a fresh state with threshold 2, an
admissible alert (discrepancy 5) whose notifier fails returns the same
bare `False` that a suppressed call (discrepancy 1, below threshold)
returns — the dispatch-failure outcome is not distinct from a
suppressed outcome. -/
theorem notifier_failure_outcome_counterexample :
    (validateAlertConditions ⟨2, [], []⟩ "AAPL" 5 0).1 = true ∧
    (validateAlertConditions ⟨2, [], []⟩ "AAPL" 1 0).1 = false ∧
    (sendAlert ⟨2, [], []⟩ "AAPL" 100 101 5 0 false).1 =
      (sendAlert ⟨2, [], []⟩ "AAPL" 100 101 1 0 true).1 := by
  refine ⟨by decide, by decide, by decide⟩

/-- Claim C5 (amended): when a `send_alert` call passes all admission
checks but the notifier delivery fails, no alert record is appended and
`last_alert_time` is untouched (the whole state is unchanged), and the
call returns `False` — the same return value a suppressed call yields,
so the caller cannot distinguish the two from the result. -/
theorem notifier_failure_no_record :
    (∀ (st : AlertState) (symbol : String) (a y d : ℚ) (now : Int),
      (validateAlertConditions st symbol d now).1 = true →
      sendAlert st symbol a y d now false = (false, st)) ∧
    (∀ (st : AlertState) (symbol : String) (a y d : ℚ) (now : Int) (ok : Bool),
      (validateAlertConditions st symbol d now).1 = false →
      sendAlert st symbol a y d now ok = (false, st)) := by
  constructor
  · intro st symbol a y d now hv
    unfold sendAlert
    rw [if_pos hv]
    rfl
  · intro st symbol a y d now ok hv
    unfold sendAlert
    rw [if_neg (by simp [hv])]

/-- Witness for C5 (amended): the admissible-but-failed call of the
counterexample state indeed leaves the state untouched and returns
`False`. -/
theorem notifier_failure_no_record_witness :
    sendAlert ⟨2, [], []⟩ "AAPL" 100 101 5 0 false = (false, ⟨2, [], []⟩) :=
  notifier_failure_no_record.1 ⟨2, [], []⟩ "AAPL" 100 101 5 0 (by decide)

/-- Claim C8: once the cooldown and threshold checks pass, the attempt is
suppressed with reason `"rate_limit"` exactly when five or more alert
records for the symbol sit inside the trailing hour; with at most four
such records the check admits the alert (`"valid"`), so a fifth
otherwise-admissible attempt is never rate-limited and a sixth is. -/
theorem rate_limit_boundary :
    ∀ (st : AlertState) (symbol : String) (d : ℚ) (now : Int),
      (lookupSym st.lastAlertTime symbol = none ∨
        ∃ t, lookupSym st.lastAlertTime symbol = some t ∧ 300 ≤ now - t) →
      st.threshold < |d| →
      (5 ≤ (recentAlerts st symbol now).length →
        validateAlertConditions st symbol d now = (false, "rate_limit")) ∧
      ((recentAlerts st symbol now).length ≤ 4 →
        validateAlertConditions st symbol d now = (true, "valid")) := by
  intro st symbol d now hcool hd
  have hpass : validateAlertConditions st symbol d now = validateAlertRest st symbol d now := by
    rcases hcool with h | ⟨t, ht, h300⟩
    · exact validateAlertConditions_none h
    · rw [validateAlertConditions_some ht, if_neg (by omega)]
  constructor
  · intro h5
    rw [hpass]
    unfold validateAlertRest
    rw [if_neg (not_le.mpr hd), if_pos h5]
  · intro h4
    rw [hpass]
    unfold validateAlertRest
    rw [if_neg (not_le.mpr hd), if_neg (by omega)]

/-- Witness for C8: with five alerts already inside the rolling hour the
sixth admissible attempt is suppressed with `"rate_limit"`, and with the
first four only, the fifth attempt is admitted. -/
theorem rate_limit_boundary_witness :
    validateAlertConditions ⟨2, sixRecentAlerts.take 5, []⟩ "AAPL" 5 4000 =
      (false, "rate_limit") ∧
    validateAlertConditions ⟨2, sixRecentAlerts.take 4, []⟩ "AAPL" 5 4000 =
      (true, "valid") :=
  ⟨(rate_limit_boundary ⟨2, sixRecentAlerts.take 5, []⟩ "AAPL" 5 4000 (Or.inl rfl)
      (by decide)).1 (by decide),
   (rate_limit_boundary ⟨2, sixRecentAlerts.take 4, []⟩ "AAPL" 5 4000 (Or.inl rfl)
      (by decide)).2 (by decide)⟩

/-- The Alpha Vantage fetch once the rate-limit map hits for the symbol. -/
lemma getAlphaVantageData_some {s : DataFetcherState} {symbol : String} {now t : Int}
    {net : Option RawValue} (ht : lookupSym s.lastFetchTime symbol = some t) :
    getAlphaVantageData s symbol now net =
      if now - t < 12 then
        (match s.priceHistory.getLast? with
         | some r => (some r.alphaVantagePrice, s)
         | none => (none, s))
      else avLiveFetch s symbol now net := by
  unfold getAlphaVantageData
  rw [ht]

/-- Claim C2: price validation (modelled from spec §4.1, the function
being absent from `src/`) accepts every positive finite numeric value,
returning the price; it rejects — yielding `none`, with no exception and
no state effect by construction — exactly the missing, non-numeric,
zero, negative and non-finite raw values. -/
theorem validate_price_contract :
    (∀ q : ℚ, 0 < q → validatePrice (RawValue.num q) = some q) ∧
    (∀ q : ℚ, q ≤ 0 → validatePrice (RawValue.num q) = none) ∧
    validatePrice RawValue.missing = none ∧
    validatePrice RawValue.nonNumeric = none ∧
    validatePrice RawValue.nanValue = none ∧
    validatePrice RawValue.posInf = none ∧
    validatePrice RawValue.negInf = none := by
  refine ⟨?_, ?_, rfl, rfl, rfl, rfl, rfl⟩
  · intro q hq
    simp only [validatePrice]
    rw [if_pos hq]
  · intro q hq
    simp only [validatePrice]
    rw [if_neg (not_lt.mpr hq)]

/-- Witness for C2: the positive price 7 is accepted unchanged and the
zero price is rejected. -/
theorem validate_price_contract_witness :
    validatePrice (RawValue.num 7) = some 7 ∧ validatePrice (RawValue.num 0) = none :=
  ⟨validate_price_contract.1 7 (by decide), validate_price_contract.2.1 0 (by decide)⟩

/-- A fetcher state refuting C1: the only stored record belongs to
`"MSFT"` (prices 50 / 51), while the rate-limit map holds a fresh entry
for `"AAPL"`. -/
def cexFetchState : DataFetcherState :=
  ⟨[⟨0, "MSFT", 50, 51, 2, none, none⟩], [("AAPL", 0)]⟩

/-- Claim C1, counterexample: fetching `"AAPL"` 5 s after its recorded
fetch time, with no prior `"AAPL"` record, does not yield the claimed
null outcome for either source.  The Alpha Vantage fetch returns 50 —
the `"MSFT"` record's stored price, because the cache branch reads the
last row of the global history without filtering by symbol — and the
Yahoo Finance fetch performs the live call and returns its network
value 70, not the stored Yahoo price 51 and not a cached null. -/
theorem av_cache_counterexample :
    symbolRecords cexFetchState.priceHistory "AAPL" = [] ∧
    (getAlphaVantageData cexFetchState "AAPL" 5 (some (RawValue.num 70))).1 = some 50 ∧
    some (50 : ℚ) ≠ none ∧
    getYahooFinanceData (some (RawValue.num 70)) = some 70 ∧
    cexFetchState.priceHistory.map ComparisonRecord.yahooFinancePrice = [51] ∧
    (70 : ℚ) ≠ 51 := by
  refine ⟨by decide, by decide, by decide, by decide, by decide, by decide⟩

/-- Claim C1 (amended): only the Alpha Vantage fetch has a cache path:
when `last_fetch_time[symbol]` exists and less than 12 s have elapsed it
skips the network call and returns the `Alpha Vantage Price` of the last
record of the global history, regardless of symbol (`none` when the
history is empty, via the caught `IndexError`), leaving the state
unchanged.  The Yahoo Finance fetch never consults the cache: its result
is the validation of whatever the live call returns. -/
theorem av_cache_uses_global_last_record :
    (∀ (s : DataFetcherState) (symbol : String) (now : Int) (net : Option RawValue)
      (t : Int),
      lookupSym s.lastFetchTime symbol = some t → now - t < 12 →
      getAlphaVantageData s symbol now net =
        ((s.priceHistory.getLast?).map ComparisonRecord.alphaVantagePrice, s)) ∧
    (∀ net : Option RawValue, getYahooFinanceData net = net.bind validatePrice) := by
  constructor
  · intro s symbol now net t ht h12
    rw [getAlphaVantageData_some ht, if_pos h12]
    cases s.priceHistory.getLast? <;> rfl
  · intro net
    cases net with
    | none => rfl
    | some raw =>
      show (match validatePrice raw with
            | some price => some price
            | none => none) = validatePrice raw
      cases validatePrice raw <;> rfl

/-- Witness for C1 (amended): on the counterexample state the cache
branch fires and returns the global last record's Alpha Vantage price
with the state unchanged. -/
theorem av_cache_uses_global_last_record_witness :
    getAlphaVantageData cexFetchState "AAPL" 5 (some (RawValue.num 70)) =
      ((cexFetchState.priceHistory.getLast?).map ComparisonRecord.alphaVantagePrice,
       cexFetchState) :=
  av_cache_uses_global_last_record.1 cexFetchState "AAPL" 5 (some (RawValue.num 70)) 0
    (by decide) (by decide)

/-- A nonempty list still has elements after `tail(5)`. -/
lemma lastN_five_ne_nil {α : Type} {l : List α} (h : l ≠ []) : lastN 5 l ≠ [] := by
  intro he
  unfold lastN at he
  have h1 : l.length ≤ l.length - 5 := List.drop_eq_nil_iff.mp he
  have h2 : l.length ≠ 0 := fun h0 => h (List.length_eq_zero.mp h0)
  omega

/-- Claim C6: for positive prices, cross-validation accepts whenever the
relative spread `|a − y| / min a y` is at most 0.20, regardless of
history; it accepts whenever no prior record exists for the symbol; and
when the spread exceeds 0.20 and records exist (with positive trailing
averages, as produced by validated prices), it rejects exactly when
source A deviates more than 10 % from its own up-to-5-record trailing
average or source B deviates more than 10 % from its own. -/
theorem cross_validate_spec :
    ∀ (h : List ComparisonRecord) (a y : ℚ) (symbol : String),
      0 < a → 0 < y →
      (|a - y| / min a y ≤ 1/5 → crossValidatePrices h a y symbol = true) ∧
      (symbolRecords h symbol = [] → crossValidatePrices h a y symbol = true) ∧
      (1/5 < |a - y| / min a y → symbolRecords h symbol ≠ [] →
        0 < avgAlphaRecent h symbol → 0 < avgYahooRecent h symbol →
        (crossValidatePrices h a y symbol = false ↔
          (1/10 < |a - avgAlphaRecent h symbol| / avgAlphaRecent h symbol ∨
           1/10 < |y - avgYahooRecent h symbol| / avgYahooRecent h symbol))) := by
  intro h a y symbol ha hy
  refine ⟨?_, ?_, ?_⟩
  · intro hsp
    unfold crossValidatePrices
    rw [if_neg (not_lt.mpr hsp)]
  · intro hempty
    unfold crossValidatePrices
    by_cases hsp : 1/5 < |a - y| / min a y
    · rw [if_pos hsp]
      by_cases hh : h.isEmpty = true
      · rw [if_pos hh]
      · rw [if_neg hh, if_pos (by rw [hempty]; rfl)]
    · rw [if_neg hsp]
  · intro hsp hne hpa hpy
    have hh : h ≠ [] := by
      intro he
      apply hne
      rw [he]
      rfl
    have hhe : ¬ (h.isEmpty = true) := by simpa using hh
    have hl5 : ¬ ((lastN 5 (symbolRecords h symbol)).isEmpty = true) := by
      simpa using lastN_five_ne_nil hne
    unfold crossValidatePrices
    rw [if_pos hsp, if_neg hhe, if_neg hl5]
    by_cases hA : 1/10 < |a - avgAlphaRecent h symbol| / avgAlphaRecent h symbol <;>
      by_cases hB : 1/10 < |y - avgYahooRecent h symbol| / avgYahooRecent h symbol
    · rw [if_pos ⟨hA, hB⟩]
      exact iff_of_true rfl (Or.inl hA)
    · rw [if_neg (by tauto), if_pos hA]
      exact iff_of_true rfl (Or.inl hA)
    · rw [if_neg (by tauto), if_neg hA, if_pos hB]
      exact iff_of_true rfl (Or.inr hB)
    · rw [if_neg (by tauto), if_neg hA, if_neg hB]
      exact iff_of_false (by decide) (not_or.mpr ⟨hA, hB⟩)

/-- Witness for C6: one prior `"AAPL"` record with both prices 1; the
pair (2, 1) has spread 1 > 0.20 and source A deviates 100 % from its
trailing average 1, so cross-validation rejects. -/
theorem cross_validate_spec_witness :
    crossValidatePrices [⟨0, "AAPL", 1, 1, 0, none, none⟩] 2 1 "AAPL" = false := by
  have havgA : avgAlphaRecent [⟨0, "AAPL", 1, 1, 0, none, none⟩] "AAPL" = 1 := by
    norm_num [avgAlphaRecent, symbolRecords, lastN, listMean]
  have havgY : avgYahooRecent [⟨0, "AAPL", 1, 1, 0, none, none⟩] "AAPL" = 1 := by
    norm_num [avgYahooRecent, symbolRecords, lastN, listMean]
  have hiff := (cross_validate_spec [⟨0, "AAPL", 1, 1, 0, none, none⟩] 2 1 "AAPL"
      (by decide) (by decide)).2.2
    (by rw [show |(2 : ℚ) - 1| = 1 by norm_num, show min (2 : ℚ) 1 = 1 by
          rw [min_def]; norm_num]
        norm_num)
    (by decide)
    (by rw [havgA]; decide)
    (by rw [havgY]; decide)
  refine hiff.mpr (Or.inl ?_)
  rw [havgA]
  norm_num

/-- With fewer than two records for the symbol, every analytics output
is null (either the global-length guard or the symbol guard fires). -/
lemma calculateAnalytics_short {h : List ComparisonRecord} {symbol : String}
    (hlt : (symbolRecords h symbol).length < 2) :
    calculateAnalytics h symbol = (none, none, none) := by
  unfold calculateAnalytics
  by_cases hg : h.length < 2
  · rw [if_pos hg]
  · rw [if_neg hg, if_pos hlt]

/-- With at least two records for the symbol, the analytics outputs are
the 5-window rolling mean, the all-records sample variance and the
monotonicity classification of the trailing window. -/
lemma calculateAnalytics_long {h : List ComparisonRecord} {symbol : String}
    (hge : 2 ≤ (symbolRecords h symbol).length) :
    calculateAnalytics h symbol =
      (some (listMean (lastN 5 (symbolDiffs h symbol))),
       some (sampleVarQ (symbolDiffs h symbol)),
       some (if List.Chain' (fun a b => a ≤ b) (lastN 5 (symbolDiffs h symbol))
             then "increasing"
             else if List.Chain' (fun a b => b ≤ a) (lastN 5 (symbolDiffs h symbol))
             then "decreasing"
             else "fluctuating")) := by
  have hfil : (symbolRecords h symbol).length ≤ h.length :=
    List.length_filter_le _ h
  unfold calculateAnalytics
  rw [if_neg (by omega), if_neg (not_lt.mpr hge)]

/-- `tail(min 5 n)` and `tail(5)` agree when `n` is the list's length:
natural subtraction saturates, so both drop `n - 5` elements. -/
lemma lastN_min_five (xs : List ℚ) :
    lastN (min 5 xs.length) xs = lastN 5 xs := by
  unfold lastN
  congr 1
  omega

/-- A constant list is a non-decreasing chain. -/
lemma chain_le_of_const (c : ℚ) (xs : List ℚ) (hall : ∀ x ∈ xs, x = c) :
    List.Chain' (fun a b => a ≤ b) xs := by
  induction xs with
  | nil => exact List.chain'_nil
  | cons x rest ih =>
    cases rest with
    | nil => exact List.chain'_singleton x
    | cons y rest2 =>
      rw [List.chain'_cons]
      refine ⟨?_, ih (fun z hz => hall z (List.mem_cons_of_mem _ hz))⟩
      rw [hall x (by simp), hall y (by simp)]

/-- Six `"XYZ"` records whose discrepancy percents are 1, 2, 3, 4, 5, 6
(spec §8 property 8). -/
def demoHistory : List ComparisonRecord :=
  [⟨0, "XYZ", 100, 100, 1, none, none⟩,
   ⟨1, "XYZ", 100, 100, 2, none, none⟩,
   ⟨2, "XYZ", 100, 100, 3, none, none⟩,
   ⟨3, "XYZ", 100, 100, 4, none, none⟩,
   ⟨4, "XYZ", 100, 100, 5, none, none⟩,
   ⟨5, "XYZ", 100, 100, 6, none, none⟩]

/-- Claim C7: with fewer than 2 records for the symbol all analytics are
null; with at least 2, the moving average is the mean of the last
`min 5 count` discrepancy percents (over 1..6 it is 4), the volatility is
the sample standard deviation with `N − 1` denominator over all the
symbol's discrepancy percents (stated of its square, the sample
variance), and the trend is `"increasing"` when the trailing up-to-5
values are monotonically non-decreasing — in particular for all-equal
windows — `"decreasing"` when monotonically non-increasing, else
`"fluctuating"`. -/
theorem analytics_spec :
    (∀ (h : List ComparisonRecord) (symbol : String),
      (symbolRecords h symbol).length < 2 →
      calculateAnalytics h symbol = (none, none, none)) ∧
    (∀ (h : List ComparisonRecord) (symbol : String),
      2 ≤ (symbolRecords h symbol).length →
      (calculateAnalytics h symbol).1 =
        some (listMean
          (lastN (min 5 (symbolDiffs h symbol).length) (symbolDiffs h symbol))) ∧
      (calculateAnalytics h symbol).2.1 =
        some ((((symbolDiffs h symbol).map
            (fun x => (x - listMean (symbolDiffs h symbol)) ^ 2)).sum) /
          (((symbolDiffs h symbol).length : ℚ) - 1)) ∧
      (calculateAnalytics h symbol).2.2 =
        some (if List.Chain' (fun a b => a ≤ b) (lastN 5 (symbolDiffs h symbol))
              then "increasing"
              else if List.Chain' (fun a b => b ≤ a) (lastN 5 (symbolDiffs h symbol))
              then "decreasing"
              else "fluctuating")) ∧
    (∀ (h : List ComparisonRecord) (symbol : String) (c : ℚ),
      2 ≤ (symbolRecords h symbol).length →
      (∀ x ∈ lastN 5 (symbolDiffs h symbol), x = c) →
      (calculateAnalytics h symbol).2.2 = some "increasing") ∧
    (calculateAnalytics demoHistory "XYZ").1 = some 4 := by
  refine ⟨?_, ?_, ?_, ?_⟩
  · intro h symbol hlt
    exact calculateAnalytics_short hlt
  · intro h symbol hge
    rw [calculateAnalytics_long hge, lastN_min_five]
    exact ⟨rfl, rfl, rfl⟩
  · intro h symbol c hge hall
    rw [calculateAnalytics_long hge]
    simp only
    rw [if_pos (chain_le_of_const c _ hall)]
  · rw [calculateAnalytics_long (by decide)]
    simp only
    rw [show symbolDiffs demoHistory "XYZ" = [1, 2, 3, 4, 5, 6] from by decide,
        show lastN 5 [(1 : ℚ), 2, 3, 4, 5, 6] = [2, 3, 4, 5, 6] from by decide]
    norm_num [listMean]

/-- Witness for C7: the empty history yields all-null analytics, and the
1..6 demo history's stored moving average is the mean of its trailing
`min 5 6` values. -/
theorem analytics_spec_witness :
    calculateAnalytics [] "XYZ" = (none, none, none) ∧
    (calculateAnalytics demoHistory "XYZ").1 =
      some (listMean
        (lastN (min 5 (symbolDiffs demoHistory "XYZ").length)
          (symbolDiffs demoHistory "XYZ"))) :=
  ⟨analytics_spec.1 [] "XYZ" (by decide),
   (analytics_spec.2.1 demoHistory "XYZ" (by decide)).1⟩

/-- The Alpha Vantage fetch never touches the stored price history. -/
lemma av_history_eq (s : DataFetcherState) (symbol : String) (now : Int)
    (net : Option RawValue) :
    (getAlphaVantageData s symbol now net).2.priceHistory = s.priceHistory := by
  unfold getAlphaVantageData avLiveFetch
  split
  · split
    · split <;> rfl
    · split
      · rfl
      · split <;> rfl
  · split
    · rfl
    · split <;> rfl

/-- Appending through the cap keeps the history at 1000 records or fewer. -/
lemma appendCapped_length (h : List ComparisonRecord) (r : ComparisonRecord) :
    (appendCapped h r).length ≤ 1000 := by
  unfold appendCapped
  by_cases hc : 1000 < (h ++ [r]).length
  · rw [if_pos hc, List.length_drop]
    omega
  · rw [if_neg hc]
    omega

/-- At the cap, appending evicts exactly the oldest record and keeps the
rest in order. -/
lemma appendCapped_at_cap {h : List ComparisonRecord} {r : ComparisonRecord}
    (hlen : h.length = 1000) : appendCapped h r = h.drop 1 ++ [r] := by
  unfold appendCapped
  have hl : (h ++ [r]).length = 1001 := by
    rw [List.length_append, hlen]
    rfl
  rw [if_pos (by omega), hl]
  have h1 : (1001 : Nat) - 1000 = 1 := by norm_num
  rw [h1, List.drop_append_of_le_length (by omega)]

/-- Under the cap, appending is a plain append. -/
lemma appendCapped_under_cap {h : List ComparisonRecord} {r : ComparisonRecord}
    (hlt : h.length < 1000) : appendCapped h r = h ++ [r] := by
  unfold appendCapped
  rw [if_neg (by rw [List.length_append]; simp; omega)]

/-- A reconciliation cycle's final history: untouched, or one capped
append of a single new record. -/
lemma getPriceComparison_history_cases (s : DataFetcherState) (symbol : String)
    (now : Int) (avNet yfNet : Option RawValue) :
    (getPriceComparison s symbol now avNet yfNet).2.priceHistory = s.priceHistory ∨
    ∃ r, (getPriceComparison s symbol now avNet yfNet).2.priceHistory =
      appendCapped s.priceHistory r := by
  have hh := av_history_eq s symbol now avNet
  cases ha : (getAlphaVantageData s symbol now avNet).1 with
  | none =>
    left
    simp only [getPriceComparison, ha]
    exact hh
  | some a =>
    cases hy : getYahooFinanceData yfNet with
    | none =>
      left
      simp only [getPriceComparison, ha, hy]
      exact hh
    | some y =>
      by_cases hcv : crossValidatePrices s.priceHistory a y symbol = true
      · right
        refine ⟨⟨now, symbol, a, y, |a - y| / a * 100,
          (calculateAnalytics s.priceHistory symbol).1,
          (calculateAnalytics s.priceHistory symbol).2.1⟩, ?_⟩
        simp only [getPriceComparison, ha, hy, hh, hcv, if_true]
        split <;> rfl
      · left
        have hcv' : crossValidatePrices s.priceHistory a y symbol = false := by
          cases hb : crossValidatePrices s.priceHistory a y symbol
          · rfl
          · exact absurd hb hcv
        simp only [getPriceComparison, ha, hy, hh, hcv']
        exact hh

/-- A successful cycle appends exactly the new record, whose stored
analytics were computed over the pre-append history. -/
lemma getPriceComparison_success {s : DataFetcherState} {symbol : String}
    {now : Int} {avNet yfNet : Option RawValue} {a y : ℚ}
    (ha : (getAlphaVantageData s symbol now avNet).1 = some a)
    (hy : getYahooFinanceData yfNet = some y)
    (hcv : crossValidatePrices s.priceHistory a y symbol = true) :
    (getPriceComparison s symbol now avNet yfNet).2.priceHistory =
      appendCapped s.priceHistory
        ⟨now, symbol, a, y, |a - y| / a * 100,
         (calculateAnalytics s.priceHistory symbol).1,
         (calculateAnalytics s.priceHistory symbol).2.1⟩ := by
  have hh := av_history_eq s symbol now avNet
  simp only [getPriceComparison, ha, hy, hh, hcv, if_true]
  split <;> rfl

/-- Claim C9: a cycle starting at or under the 1000-record cap ends at or
under it; at exactly the cap, appending evicts precisely the single
oldest record, preserving the insertion order of the remaining records;
under the cap, appending keeps every record. -/
theorem history_cap :
    (∀ (s : DataFetcherState) (symbol : String) (now : Int)
      (avNet yfNet : Option RawValue),
      s.priceHistory.length ≤ 1000 →
      (getPriceComparison s symbol now avNet yfNet).2.priceHistory.length ≤ 1000) ∧
    (∀ (h : List ComparisonRecord) (r : ComparisonRecord),
      h.length = 1000 → appendCapped h r = h.drop 1 ++ [r]) ∧
    (∀ (h : List ComparisonRecord) (r : ComparisonRecord),
      h.length < 1000 → appendCapped h r = h ++ [r]) := by
  refine ⟨?_, ?_, ?_⟩
  · intro s symbol now avNet yfNet hle
    rcases getPriceComparison_history_cases s symbol now avNet yfNet with he | ⟨r, he⟩
    · rw [he]
      exact hle
    · rw [he]
      exact appendCapped_length _ _
  · intro h r hlen
    exact appendCapped_at_cap hlen
  · intro h r hlt
    exact appendCapped_under_cap hlt

/-- A filler record for exercising the cap. -/
def fillRecord : ComparisonRecord := ⟨0, "A", 1, 1, 0, none, none⟩

/-- Witness for C9: a history of exactly 1000 records evicts its head on
append, and a cycle from the empty state stays under the cap. -/
theorem history_cap_witness :
    appendCapped (List.replicate 1000 fillRecord) fillRecord =
      (List.replicate 1000 fillRecord).drop 1 ++ [fillRecord] ∧
    (getPriceComparison ⟨[], []⟩ "A" 0 (some (RawValue.num 100))
      (some (RawValue.num 100))).2.priceHistory.length ≤ 1000 :=
  ⟨history_cap.2.1 _ fillRecord (by rw [List.length_replicate]),
   history_cap.1 ⟨[], []⟩ "A" 0 _ _ (by decide)⟩

/-- Claim C10: whenever a cycle records a comparison, the appended
record's stored analytics come from the history strictly preceding the
append — its own discrepancy is excluded — so with fewer than 2 prior
records for the symbol the stored fields are null, and with `k ≥ 2`
prior records the stored moving average is the mean of the previous
`min 5 k` discrepancy percents. -/
theorem recorded_analytics_precede_append :
    ∀ (s : DataFetcherState) (symbol : String) (now : Int)
      (avNet yfNet : Option RawValue) (a y : ℚ),
      (getAlphaVantageData s symbol now avNet).1 = some a →
      getYahooFinanceData yfNet = some y →
      crossValidatePrices s.priceHistory a y symbol = true →
      ((getPriceComparison s symbol now avNet yfNet).2.priceHistory =
        appendCapped s.priceHistory
          ⟨now, symbol, a, y, |a - y| / a * 100,
           (calculateAnalytics s.priceHistory symbol).1,
           (calculateAnalytics s.priceHistory symbol).2.1⟩) ∧
      ((symbolRecords s.priceHistory symbol).length < 2 →
        (calculateAnalytics s.priceHistory symbol).1 = none ∧
        (calculateAnalytics s.priceHistory symbol).2.1 = none) ∧
      (2 ≤ (symbolRecords s.priceHistory symbol).length →
        (calculateAnalytics s.priceHistory symbol).1 =
          some (listMean (lastN (min 5 (symbolDiffs s.priceHistory symbol).length)
            (symbolDiffs s.priceHistory symbol)))) := by
  intro s symbol now avNet yfNet a y ha hy hcv
  refine ⟨getPriceComparison_success ha hy hcv, ?_, ?_⟩
  · intro hlt
    rw [calculateAnalytics_short hlt]
    exact ⟨rfl, rfl⟩
  · intro hge
    rw [calculateAnalytics_long hge, lastN_min_five]

/-- Witness for C10: from the empty state, a successful cycle with both
prices 100 appends one record that stores null analytics computed from
the empty pre-append history. -/
theorem recorded_analytics_precede_append_witness :
    (getPriceComparison ⟨[], []⟩ "A" 0 (some (RawValue.num 100))
      (some (RawValue.num 100))).2.priceHistory =
      appendCapped ([] : List ComparisonRecord)
        ⟨0, "A", 100, 100, |(100 : ℚ) - 100| / 100 * 100,
         (calculateAnalytics [] "A").1, (calculateAnalytics [] "A").2.1⟩ :=
  (recorded_analytics_precede_append ⟨[], []⟩ "A" 0 (some (RawValue.num 100))
    (some (RawValue.num 100)) 100 100 (by decide) (by decide)
    (by unfold crossValidatePrices
        rw [if_neg]
        norm_num [min_def])).1

end FinDash
